import Mathlib

/-!
Verification of the heuristic resume field extractor of SmartResumeBuilder
(`extract_resume_from_pdf` and `get_default_16_fields` in `app.py`).

The extractor is embedded shallowly: the flat page text (the string the
Python code accumulates from the PDF pages) is the input, and every
detector of the pipeline is translated into an executable Lean function
over that string.  Machine strings are modelled as `String` (a list of
unicode scalar values, matching Python's code-point semantics for `len`
and slicing); regular expressions of the source are compiled by hand into
the scanning functions below, preserving leftmost-match and greedy
semantics.  The `try/except` wrapper of the source, which mutates a
result dictionary in place and returns whatever has been assigned when an
exception is caught, is modelled by running a prefix of the pipeline's
stage list (`extractUpTo`); the full extraction is the fold of all
stages.
-/

namespace SRB

/-! ## Basic character/list helpers -/

def isWS (c : Char) : Bool := c.isWhitespace

/-- Python `str.strip()` on a list of characters. -/
def stripL (l : List Char) : List Char :=
  ((l.dropWhile isWS).reverse.dropWhile isWS).reverse

/-- Split a character list at every character satisfying `p`
(keeping empty chunks, like Python `re.split` / `str.split(sep)`). -/
def splitPred (p : Char → Bool) : List Char → List (List Char)
  | [] => [[]]
  | c :: rest =>
    match splitPred p rest with
    | [] => [[]]
    | g :: gs => if p c then [] :: g :: gs else (c :: g) :: gs

/-- Case-sensitive "is a leading part of" test on character lists. -/
def isPrefL : List Char → List Char → Bool
  | [], _ => true
  | _ :: _, [] => false
  | a :: as, b :: bs => a == b && isPrefL as bs

/-- Case-sensitive substring test (`needle in hay` of Python). -/
def containsL (n : List Char) : List Char → Bool
  | [] => isPrefL n []
  | c :: rest => isPrefL n (c :: rest) || containsL n rest

/-! ## String wrappers -/

/-- Python `text[:n]` (first `n` code points). -/
def pyTake (s : String) (n : Nat) : String := ⟨s.data.take n⟩

/-- Python `str.strip()`. -/
def pyStrip (s : String) : String := ⟨stripL s.data⟩

/-- Python `str.lower()` (ASCII case folding, as used by the source). -/
def lowerS (s : String) : String := ⟨s.data.map Char.toLower⟩

/-- Python `needle in hay`. -/
def containsS (needle hay : String) : Bool := containsL needle.data hay.data

/-- Python `str.split()` with no argument: split on whitespace runs. -/
def pyWords (s : String) : List String :=
  ((splitPred isWS s.data).filter (fun l => !l.isEmpty)).map String.mk

/-- `sep.join(xs)` of Python. -/
def joinS (sep : String) : List String → String
  | [] => ""
  | [x] => x
  | x :: y :: ys => x ++ sep ++ joinS sep (y :: ys)

/-- `all_text.splitlines()` followed by stripping each line and dropping
empty lines (`lines = [ln.strip() for ln in all_text.splitlines() if ln.strip()]`);
the page-concatenated text uses `\n` separators. -/
def pyLines (s : String) : List String :=
  ((splitPred (fun c => c == '\n') s.data).map
      (fun l => String.mk (stripL l))).filter (fun ln => !ln.data.isEmpty)

/-- The normalized line list the extractor works on for input `text`. -/
def extLines (text : String) : List String := pyLines (pyStrip text)

/-! ## Case-insensitive pattern matching

The section-header regexes of the source use only three shapes:
literal words separated by `\s+` searched anywhere in the line, fully
anchored alternatives (`^...$`), and an optional trailing `s` which is
expanded into explicit alternatives.  They are compiled into `Pat`. -/

/-- Consume the (lowercase) literal `pat` at the head of `cs`,
case-insensitively; return the rest on success. -/
def eatLit : List Char → List Char → Option (List Char)
  | [], h => some h
  | _ :: _, [] => none
  | p :: ps, c :: cs => if p == c.toLower then eatLit ps cs else none

/-- Match `parts` joined by `\s+` (one or more whitespace), anchored at
the head of `cs`, case-insensitively.  Greedy whitespace consumption is
exact here because every part starts with a letter. -/
def eatParts : List String → List Char → Bool
  | [], _ => true
  | [w], cs => (eatLit w.data cs).isSome
  | w :: ws, cs =>
    match eatLit w.data cs with
    | some (c :: cs2) =>
      c.isWhitespace && eatParts ws (List.dropWhile Char.isWhitespace cs2)
    | _ => false

/-- `re.search` of `parts` joined by `\s+`, case-insensitive. -/
def searchParts (parts : List String) : List Char → Bool
  | [] => eatParts parts []
  | c :: cs => eatParts parts (c :: cs) || searchParts parts cs

/-- A compiled section-header pattern. -/
inductive Pat where
  /-- words searched anywhere in the line, separated by `\s+` -/
  | sub (parts : List String) : Pat
  /-- `^...$` anchored alternatives (already lowercase) -/
  | exact (alts : List String) : Pat
deriving DecidableEq, Repr

def matchPat (p : Pat) (ln : String) : Bool :=
  match p with
  | .sub parts => searchParts parts ln.data
  | .exact alts => alts.any (fun a => a == lowerS ln)

/-- `re.match(r"^page\s+\d+", ln, re.IGNORECASE)`. -/
def pageMarker (ln : String) : Bool :=
  match eatLit "page".data ln.data with
  | some (c :: cs) =>
    c.isWhitespace &&
      (match List.dropWhile Char.isWhitespace cs with
       | d :: _ => d.isDigit
       | [] => false)
  | _ => false

/-! ## Email detection

`re.search(r"[A-Za-z0-9._%+-]+@[A-Za-z0-9.-]+\.[A-Za-z]{2,}", all_text)`:
leftmost match; the local and domain parts are greedy with backtracking,
which resolves to: maximal local run, a literal `@`, then within the
maximal domain-class run the latest `.` that is followed by at least two
letters, the top-level part being the maximal letter run after it. -/

def isLocalChar (c : Char) : Bool :=
  c.isAlpha || c.isDigit || c == '.' || c == '_' || c == '%' || c == '+' || c == '-'

def isDomChar (c : Char) : Bool :=
  c.isAlpha || c.isDigit || c == '.' || c == '-'

/-- Split the domain-class run at the latest `.` followed by two letters;
returns the part before the dot and the maximal letter run after it. -/
def tldSplit : List Char → Option (List Char × List Char)
  | [] => none
  | c :: rest =>
    match tldSplit rest with
    | some (pre, tld) => some (c :: pre, tld)
    | none =>
      if c == '.' then
        match rest with
        | a :: b :: _ =>
          if a.isAlpha && b.isAlpha then some ([], rest.takeWhile Char.isAlpha)
          else none
        | _ => none
      else none

/-- Try an email match anchored at the current position. -/
def emailAt (cs : List Char) : Option (List Char) :=
  match cs.takeWhile isLocalChar, cs.dropWhile isLocalChar with
  | [], _ => none
  | loc, '@' :: r2 =>
    match tldSplit (r2.takeWhile isDomChar) with
    | some (pre, tld) => some (loc ++ '@' :: (pre ++ '.' :: tld))
    | none => none
  | _, _ => none

/-- Leftmost email match in the text. -/
def findEmail : List Char → Option (List Char)
  | [] => none
  | c :: cs =>
    match emailAt (c :: cs) with
    | some m => some m
    | none => findEmail cs

/-! ## Phone detection

Patterns, in the priority order of the source:
`\+91[\s\-]?\d{10}`, `\b0\d{10}\b`, `\b\d{10}\b`. -/

def tenDigits (l : List Char) : Bool :=
  decide (10 ≤ l.length) && (l.take 10).all Char.isDigit

def wordB (c : Char) : Bool := c.isAlpha || c.isDigit || c == '_'

def boundaryOk : Option Char → Bool
  | none => true
  | some c => !wordB c

def afterOk : List Char → Bool
  | [] => true
  | d :: _ => !wordB d

def p1At : List Char → Option (List Char)
  | '+' :: '9' :: '1' :: s :: rest =>
    if s.isWhitespace || s == '-' then
      (if tenDigits rest then some ('+' :: '9' :: '1' :: s :: rest.take 10) else none)
    else
      (if tenDigits (s :: rest) then some ('+' :: '9' :: '1' :: (s :: rest).take 10)
       else none)
  | _ => none

def findP1 : List Char → Option (List Char)
  | [] => none
  | c :: cs =>
    match p1At (c :: cs) with
    | some m => some m
    | none => findP1 cs

def findP2 (prev : Option Char) : List Char → Option (List Char)
  | [] => none
  | c :: cs =>
    if boundaryOk prev && c == '0' && tenDigits cs && afterOk (cs.drop 10) then
      some (c :: cs.take 10)
    else findP2 (some c) cs

def findP3 (prev : Option Char) : List Char → Option (List Char)
  | [] => none
  | c :: cs =>
    if boundaryOk prev && tenDigits (c :: cs) && afterOk ((c :: cs).drop 10) then
      some ((c :: cs).take 10)
    else findP3 (some c) cs

/-! ## Social links

`re.search(r"linkedin\.com[^\s]*", all_text, re.IGNORECASE)` (same for
github): leftmost case-insensitive literal, extended by the following
non-whitespace run; the matched text keeps its original casing. -/

/-- Like `eatLit` but returning the consumed original characters. -/
def eatKeep : List Char → List Char → Option (List Char × List Char)
  | [], h => some ([], h)
  | _ :: _, [] => none
  | p :: ps, c :: cs =>
    if p == c.toLower then (eatKeep ps cs).map (fun r => (c :: r.1, r.2)) else none

def findTok (pat : List Char) : List Char → Option (List Char)
  | [] => none
  | c :: cs =>
    match eatKeep pat (c :: cs) with
    | some (m, rest) => some (m ++ rest.takeWhile (fun c => !c.isWhitespace))
    | none => findTok pat cs

/-! ## Section header catalog (`section_patterns` of the source) -/

def summaryPats : List Pat :=
  [.sub ["career", "objective"], .exact ["objective"],
   .sub ["professional", "summary"], .sub ["summary"], .sub ["profile"],
   .sub ["about", "me"]]

def skillsPats : List Pat :=
  [.sub ["technical", "skills"], .exact ["skills"],
   .sub ["core", "competencies"], .sub ["key", "skills"],
   .sub ["skills", "and", "tools"]]

def experiencePats : List Pat :=
  [.sub ["professional", "experience"], .sub ["work", "experience"],
   .exact ["experience"], .sub ["employment", "history"],
   .sub ["career", "history"], .sub ["internship", "experience"]]

def projectsPats : List Pat :=
  [.sub ["academic", "projects"], .sub ["key", "projects"],
   .exact ["projects"], .sub ["personal", "projects"]]

def educationPats : List Pat :=
  [.exact ["education"], .sub ["academic", "background"],
   .sub ["educational", "qualification"], .sub ["academic", "qualifications"],
   .sub ["education", "details"]]

def certificationsPats : List Pat :=
  [.exact ["certification", "certifications"],
   .sub ["professional", "certification"], .sub ["license"], .sub ["courses"]]

def languagesPats : List Pat :=
  [.sub ["languages", "known"], .sub ["language", "known"],
   .exact ["language", "languages"]]

def awardsPats : List Pat :=
  [.exact ["awards"], .sub ["achievements"], .sub ["honors"]]

def sectionSpecs : List (String × List Pat) :=
  [("summary", summaryPats), ("skills", skillsPats),
   ("experience", experiencePats), ("projects", projectsPats),
   ("education", educationPats), ("certifications", certificationsPats),
   ("languages", languagesPats), ("awards", awardsPats)]

def matchAnyPat (ps : List Pat) (ln : String) : Bool := ps.any (fun p => matchPat p ln)

/-- Index of the first element satisfying `p` (the `for i, ln in enumerate`
scans of the source). -/
def firstIdx (p : α → Bool) : List α → Option Nat
  | [] => none
  | a :: as => if p a then some 0 else (firstIdx p as).map (· + 1)

/-- `section_positions`: for every section field, the index of the first
line matching any of its patterns (fields with no match are absent). -/
def sectionPositions (L : List String) : List (String × Nat) :=
  sectionSpecs.filterMap
    (fun fp => (firstIdx (matchAnyPat fp.2) L).map (fun i => (fp.1, i)))

def posOf (L : List String) (f : String) : Option Nat :=
  (sectionPositions L).lookup f

/-- The slicing bound of `get_section_content`: starting from the document
length, replace it by any stored header position that is strictly greater
than `start` and smaller than the bound found so far. -/
def sliceEnd (ps : List (String × Nat)) (start len : Nat) : Nat :=
  ps.foldl (fun e fp => if start < fp.2 ∧ fp.2 < e then fp.2 else e) len

/-- Line filter inside `get_section_content`: drop lines shorter than 10
characters and pagination markers. -/
def keepLine (ln : String) : Bool :=
  !(decide (ln.length < 10)) && !(pageMarker ln)

/-- `get_section_content(field_name, max_lines)`. -/
def sectionContent (L : List String) (f : String) (maxLines : Nat) : List String :=
  match posOf L f with
  | none => []
  | some h =>
    ((L.drop (h + 1)).take
        (min (sliceEnd (sectionPositions L) (h + 1) L.length) (h + 1 + maxLines)
          - (h + 1))).filter keepLine

/-- The content slice before the per-field line cap and the line filter
are applied (used to state the section-boundary claim). -/
def rawSectionSlice (L : List String) (f : String) : List String :=
  match posOf L f with
  | none => []
  | some h =>
    (L.drop (h + 1)).take (sliceEnd (sectionPositions L) (h + 1) L.length - (h + 1))

/-! ## Per-field detectors -/

/-- Name heuristic on one line: no `@`/`http`/`+91`, 2 to 4 words, length
under 50, and the alphabetic-or-space ratio above 0.7 (the float
comparison `alpha_count / len(ln) > 0.7` is exact as `10*alpha > 7*len`
for the line lengths involved). -/
def namePred (ln : String) : Bool :=
  !(containsS "@" ln) && !(containsS "http" (lowerS ln)) &&
  !(containsS "+91" ln) &&
  decide (2 ≤ (pyWords ln).length) && decide ((pyWords ln).length ≤ 4) &&
  decide (ln.length < 50) &&
  (let a := (ln.data.filter (fun c => c.isAlpha || c.isWhitespace)).length
   decide (0 < a) && decide (7 * ln.length < 10 * a))

def nameVal (L : List String) (prev : String) : String :=
  (List.find? namePred (L.take 15)).getD prev

def emailVal (t prev : String) : String :=
  match findEmail t.data with
  | some m => String.mk m
  | none => prev

def phoneVal (t prev : String) : String :=
  match findP1 t.data with
  | some m => String.mk m
  | none =>
    match findP2 none t.data with
    | some m => String.mk m
    | none =>
      match findP3 none t.data with
      | some m => String.mk m
      | none => prev

def cityList : List String :=
  ["ahmedabad", "gandhinagar", "vadodara", "surat",
   "delhi", "mumbai", "bangalore", "pune", "hyderabad",
   "kolkata", "firozabad", "india", "gujarat",
   "usa", "uk", "canada"]

def locPred1 (ln : String) : Bool :=
  cityList.any (fun c => containsS c (lowerS ln) && decide (ln.length < 80))

def locPred2 (ln : String) : Bool :=
  containsS "," ln && ln.data.any Char.isAlpha

def locVal (L : List String) (prev : String) : String :=
  match List.find? locPred1 L with
  | some ln => ln
  | none =>
    if prev = "" then (List.find? locPred2 (L.take 10)).getD prev else prev

def startsWithHttp (m : List Char) : Bool := isPrefL "http".data m

def linkVal (t prev : String) : String :=
  match findTok "linkedin.com".data t.data with
  | some m => if startsWithHttp m then String.mk m else String.mk ("https://".data ++ m)
  | none => prev

def ghVal (t prev : String) : String :=
  match findTok "github.com".data t.data with
  | some m => if startsWithHttp m then String.mk m else String.mk ("https://".data ++ m)
  | none => prev

def defMsg : String := "PDF loaded successfully! Edit your details above."

def careerPred (ln : String) : Bool := searchParts ["career", "objective"] ln.data

def summaryVal (L : List String) (prev : String) : String :=
  if sectionContent L "summary" 10 = [] then prev
  else pyTake (joinS " " (sectionContent L "summary" 10)) 1000

def careerVal (L : List String) (prev : String) : String :=
  if sectionContent L "summary" 10 = [] then prev
  else if L.any careerPred then pyTake (joinS " " (sectionContent L "summary" 10)) 1000
  else prev

def skillSeps : List Char := [',', '•', '|', '/', '\n']

def skillTokens (s : String) : List String :=
  ((splitPred (fun c => skillSeps.contains c) s.data).map
      (fun t => String.mk (stripL t))).filter
    (fun t => decide (2 < t.length) && decide (t.length < 80))

def skillsVal (L : List String) (prev : String) : String :=
  if sectionContent L "skills" 20 = [] then prev
  else
    pyTake (joinS ", " ((skillTokens (joinS " " (sectionContent L "skills" 20))).take 30)) 500

def expFallbackPred (ln : String) : Bool :=
  containsS "experience" (lowerS ln) && decide (ln.length < 70)

/-- The experience fallback: the 14 lines after the first line that
contains "experience" and is shorter than 70 characters. -/
def fallbackExp (L : List String) : List String :=
  match firstIdx expFallbackPred L with
  | some i => (L.drop (i + 1)).take 14
  | none => []

def expVal (L : List String) (prev : String) : String :=
  if sectionContent L "experience" 30 = [] then
    (if fallbackExp L = [] then prev else pyTake (joinS "\n" (fallbackExp L)) 1500)
  else pyTake (joinS "\n" (sectionContent L "experience" 30)) 1500

def degreeWords : List String := ["b.tech", "b.e", "bachelor", "master", "phd", "degree"]

def eduFallback (L : List String) : List String :=
  L.filter (fun ln => degreeWords.any (fun w => containsS w (lowerS ln)))

def eduVal (L : List String) (prev : String) : String :=
  if sectionContent L "education" 20 = [] then
    (if eduFallback L = [] then prev else pyTake (joinS "\n" (eduFallback L)) 1000)
  else pyTake (joinS "\n" (sectionContent L "education" 20)) 1000

def projVal (L : List String) (prev : String) : String :=
  if sectionContent L "projects" 30 = [] then prev
  else pyTake (joinS "\n" (sectionContent L "projects" 30)) 800

def certVal (L : List String) (prev : String) : String :=
  if sectionContent L "certifications" 15 = [] then prev
  else pyTake (joinS "\n" (sectionContent L "certifications" 15)) 800

def langVal (L : List String) (prev : String) : String :=
  if sectionContent L "languages" 5 = [] then prev
  else pyTake (joinS ", " (sectionContent L "languages" 5)) 300

def awardsVal (L : List String) (prev : String) : String :=
  if sectionContent L "awards" 15 = [] then prev
  else pyTake (joinS "\n" (sectionContent L "awards" 15)) 500

def titleKw : List String :=
  ["engineer", "developer", "analyst", "manager", "specialist",
   "consultant", "architect", "designer", "scientist", "executive",
   "coordinator"]

def titlePred (ln : String) : Bool :=
  titleKw.any (fun kw => containsS kw (lowerS ln)) && decide (ln.length < 100)

def titleSniff (sk : String) : String :=
  if containsS "data" (lowerS sk) then "Data Professional"
  else if containsS "python" (lowerS sk) then "Software Developer"
  else "Professional"

/-- Title inference: run only when the title so far is empty or the
literal "My Resume"; scan the first 25 lines for a job-title keyword;
the keyword sniff on the skills text runs only when the title equals
"My Resume" afterwards (faithful to the source's comparison). -/
def titleVal (L : List String) (sk prev : String) : String :=
  if prev = "" ∨ prev = "My Resume" then
    (if (List.find? titlePred (L.take 25)).getD prev = "My Resume" then titleSniff sk
     else (List.find? titlePred (L.take 25)).getD prev)
  else prev

/-! ## The extracted-fields record and the pipeline -/

/-- `ExtractedFields`: the 20-key mapping returned by the extractor, in
the key order of `get_default_16_fields`.  Every value is a `String` by
construction. -/
structure Fields where
  title : String
  fullname : String
  email : String
  phone : String
  location : String
  summary : String
  skills : String
  experience : String
  education : String
  projects : String
  certifications : String
  awards : String
  languages : String
  linkedin : String
  github : String
  website : String
  dob : String
  nationality : String
  softskills : String
  career_objective : String
deriving DecidableEq, Repr

/-- `get_default_16_fields()`. -/
def defaultFields : Fields :=
  { title := "", fullname := "Your Name", email := "", phone := "",
    location := "", summary := defMsg, skills := "", experience := "",
    education := "", projects := "", certifications := "", awards := "",
    languages := "", linkedin := "", github := "", website := "",
    dob := "", nationality := "", softskills := "", career_objective := "" }

/-- The returned mapping as an association list, in the insertion order
of the source dictionary. -/
def Fields.toMap (st : Fields) : List (String × String) :=
  [("title", st.title), ("fullname", st.fullname), ("email", st.email),
   ("phone", st.phone), ("location", st.location), ("summary", st.summary),
   ("skills", st.skills), ("experience", st.experience),
   ("education", st.education), ("projects", st.projects),
   ("certifications", st.certifications), ("awards", st.awards),
   ("languages", st.languages), ("linkedin", st.linkedin),
   ("github", st.github), ("website", st.website), ("dob", st.dob),
   ("nationality", st.nationality), ("softskills", st.softskills),
   ("career_objective", st.career_objective)]

def keyList : List String :=
  ["title", "fullname", "email", "phone", "location", "summary", "skills",
   "experience", "education", "projects", "certifications", "awards",
   "languages", "linkedin", "github", "website", "dob", "nationality",
   "softskills", "career_objective"]

/-- The assignment statements of the pipeline, in source order.  Each
stage rewrites exactly the fields its source block assigns, reading the
previous value for the "leave unchanged when nothing detected"
behaviour. -/
def stageList (t : String) (L : List String) : List (Fields → Fields) :=
  [fun st => { st with fullname := nameVal L st.fullname },
   fun st => { st with email := emailVal t st.email },
   fun st => { st with phone := phoneVal t st.phone },
   fun st => { st with location := locVal L st.location },
   fun st => { st with linkedin := linkVal t st.linkedin },
   fun st => { st with github := ghVal t st.github },
   fun st => { st with summary := summaryVal L st.summary,
                       career_objective := careerVal L st.career_objective },
   fun st => { st with skills := skillsVal L st.skills },
   fun st => { st with experience := expVal L st.experience },
   fun st => { st with education := eduVal L st.education },
   fun st => { st with projects := projVal L st.projects },
   fun st => { st with certifications := certVal L st.certifications },
   fun st => { st with languages := langVal L st.languages },
   fun st => { st with awards := awardsVal L st.awards },
   fun st => { st with title := titleVal L st.skills st.title }]

/-- Run the first `k` pipeline stages over the default mapping.  This
models the `try` block of `extract_resume_from_pdf`: an exception after
the `k`-th assignment is caught and the current mapping is returned, so
the value after a fault is exactly `extractUpTo text k`; the faultless
run is `k = 15`.  The two early `return result` guards (empty stripped
text, no non-empty lines) precede every stage. -/
def extractUpTo (text : String) (k : Nat) : Fields :=
  if pyStrip text = "" then defaultFields
  else if extLines text = [] then defaultFields
  else ((stageList (pyStrip text) (extLines text)).take k).foldl (fun s f => f s) defaultFields

/-- `extract_resume_from_pdf` from the flat page text on the faultless
path: all 15 stages. -/
def extract (text : String) : Fields := extractUpTo text 15

/-! ## Basic lemmas about the string helpers -/

theorem data_append (a b : String) : (a ++ b).data = a.data ++ b.data := by
  cases a; cases b; rfl

theorem ne_empty_iff (s : String) : s ≠ "" ↔ s.data ≠ [] := by
  constructor
  · intro h hd
    apply h
    cases s with
    | mk d => cases hd; rfl
  · intro h he
    exact h (by rw [he])

theorem length_data (s : String) : s.length = s.data.length := rfl

theorem length_pos_of_ne {s : String} (h : s ≠ "") : 0 < s.length := by
  have hd := (ne_empty_iff s).1 h
  rw [length_data]
  cases hm : s.data with
  | nil => exact absurd hm hd
  | cons c l => simp

theorem pyTake_length_le (s : String) (n : Nat) : (pyTake s n).length ≤ n := by
  show (s.data.take n).length ≤ n
  rw [List.length_take]
  exact min_le_left _ _

theorem pyTake_ne_empty {s : String} {n : Nat} (hs : s ≠ "") (hn : 0 < n) :
    pyTake s n ≠ "" := by
  rw [ne_empty_iff] at hs ⊢
  show s.data.take n ≠ []
  cases hd : s.data with
  | nil => exact absurd hd hs
  | cons c l =>
    cases n with
    | zero => exact absurd hn (by simp)
    | succ m => simp

theorem append_ne_empty_left {a : String} (b : String) (h : a ≠ "") : a ++ b ≠ "" := by
  rw [ne_empty_iff] at h ⊢
  rw [data_append]
  intro hc
  exact h (List.append_eq_nil.mp hc).1

theorem joinS_cons_ne {sep x : String} {xs : List String} (h : x ≠ "") :
    joinS sep (x :: xs) ≠ "" := by
  cases xs with
  | nil => simpa [joinS]
  | cons y ys =>
    show x ++ sep ++ joinS sep (y :: ys) ≠ ""
    exact append_ne_empty_left _ (append_ne_empty_left _ h)

theorem mem_pyLines_ne {s ln : String} (h : ln ∈ pyLines s) : ln ≠ "" := by
  unfold pyLines at h
  have h2 := (List.mem_filter.mp h).2
  intro he
  subst he
  exact absurd h2 (by decide)

theorem mem_extLines_ne {text ln : String} (h : ln ∈ extLines text) : ln ≠ "" :=
  mem_pyLines_ne h

/-! ## Lemmas about section slicing -/

theorem sliceEnd_le_init (ps : List (String × Nat)) (start : Nat) :
    ∀ e, sliceEnd ps start e ≤ e := by
  induction ps with
  | nil => intro e; simp [sliceEnd]
  | cons p ps ih =>
    intro e
    show sliceEnd ps start (if start < p.2 ∧ p.2 < e then p.2 else e) ≤ e
    by_cases hc : start < p.2 ∧ p.2 < e
    · rw [if_pos hc]; exact le_trans (ih p.2) (le_of_lt hc.2)
    · rw [if_neg hc]; exact ih e

theorem sliceEnd_le_of_mem :
    ∀ (ps : List (String × Nat)) (fp : String × Nat), fp ∈ ps →
      ∀ (start e : Nat), start < fp.2 → sliceEnd ps start e ≤ fp.2 := by
  intro ps
  induction ps with
  | nil => intro fp hm; cases hm
  | cons p ps ih =>
    intro fp hm start e hs
    rw [List.mem_cons] at hm
    show sliceEnd ps start (if start < p.2 ∧ p.2 < e then p.2 else e) ≤ fp.2
    rcases hm with rfl | hm
    · by_cases hc : start < fp.2 ∧ fp.2 < e
      · rw [if_pos hc]; exact sliceEnd_le_init ps start fp.2
      · rw [if_neg hc]
        have hnl : ¬ fp.2 < e := fun hlt => hc ⟨hs, hlt⟩
        exact le_trans (sliceEnd_le_init ps start e) (le_of_not_lt hnl)
    · by_cases hc : start < p.2 ∧ p.2 < e
      · rw [if_pos hc]; exact ih fp hm start p.2 hs
      · rw [if_neg hc]; exact ih fp hm start e hs

theorem lookup_mem :
    ∀ (ps : List (String × Nat)) (f : String) (h : Nat),
      ps.lookup f = some h → (f, h) ∈ ps := by
  intro ps
  induction ps with
  | nil => intro f h hl; simp [List.lookup] at hl
  | cons p ps ih =>
    intro f h hl
    cases p with
    | mk a b =>
      simp only [List.lookup] at hl
      split at hl
      · cases hl
        have hfa : f = a := by
          rename_i hbeq
          exact eq_of_beq hbeq
        subst hfa
        exact List.mem_cons_self _ _
      · exact List.mem_cons_of_mem _ (ih f h hl)

theorem sectionContent_len {L : List String} {f : String} {m : Nat} {ln : String}
    (h : ln ∈ sectionContent L f m) : 10 ≤ ln.length := by
  unfold sectionContent at h
  split at h
  · simp at h
  · have h2 := (List.mem_filter.mp h).2
    unfold keepLine at h2
    simp only [Bool.and_eq_true, Bool.not_eq_true', decide_eq_false_iff_not,
      Nat.not_lt] at h2
    exact h2.1

theorem sectionContent_ne_mem {L : List String} {f : String} {m : Nat} {ln : String}
    (h : ln ∈ sectionContent L f m) : ln ≠ "" := by
  have := sectionContent_len h
  intro he
  subst he
  simp [length_data] at this

/-! ## Characterizations of the extractor's result fields -/

theorem upTo_strip_empty {text : String} (h : pyStrip text = "") (k : Nat) :
    extractUpTo text k = defaultFields := by
  unfold extractUpTo; rw [if_pos h]

theorem extLines_of_strip_empty {text : String} (h : pyStrip text = "") :
    extLines text = [] := by
  unfold extLines; rw [h]; rfl

theorem upTo_lines_empty {text : String} (h1 : ¬ pyStrip text = "")
    (h2 : extLines text = []) (k : Nat) : extractUpTo text k = defaultFields := by
  unfold extractUpTo; rw [if_neg h1, if_pos h2]

theorem extract_fullname {text : String} (h1 : ¬ pyStrip text = "")
    (h2 : ¬ extLines text = []) :
    (extract text).fullname = nameVal (extLines text) "Your Name" := by
  unfold extract extractUpTo; rw [if_neg h1, if_neg h2]; rfl

theorem extract_summary {text : String} (h1 : ¬ pyStrip text = "")
    (h2 : ¬ extLines text = []) :
    (extract text).summary = summaryVal (extLines text) defMsg := by
  unfold extract extractUpTo; rw [if_neg h1, if_neg h2]; rfl

theorem extract_career {text : String} (h1 : ¬ pyStrip text = "")
    (h2 : ¬ extLines text = []) :
    (extract text).career_objective = careerVal (extLines text) "" := by
  unfold extract extractUpTo; rw [if_neg h1, if_neg h2]; rfl

theorem extract_skills {text : String} (h1 : ¬ pyStrip text = "")
    (h2 : ¬ extLines text = []) :
    (extract text).skills = skillsVal (extLines text) "" := by
  unfold extract extractUpTo; rw [if_neg h1, if_neg h2]; rfl

theorem extract_experience {text : String} (h1 : ¬ pyStrip text = "")
    (h2 : ¬ extLines text = []) :
    (extract text).experience = expVal (extLines text) "" := by
  unfold extract extractUpTo; rw [if_neg h1, if_neg h2]; rfl

theorem extract_education {text : String} (h1 : ¬ pyStrip text = "")
    (h2 : ¬ extLines text = []) :
    (extract text).education = eduVal (extLines text) "" := by
  unfold extract extractUpTo; rw [if_neg h1, if_neg h2]; rfl

theorem extract_projects {text : String} (h1 : ¬ pyStrip text = "")
    (h2 : ¬ extLines text = []) :
    (extract text).projects = projVal (extLines text) "" := by
  unfold extract extractUpTo; rw [if_neg h1, if_neg h2]; rfl

theorem extract_certifications {text : String} (h1 : ¬ pyStrip text = "")
    (h2 : ¬ extLines text = []) :
    (extract text).certifications = certVal (extLines text) "" := by
  unfold extract extractUpTo; rw [if_neg h1, if_neg h2]; rfl

theorem extract_languages {text : String} (h1 : ¬ pyStrip text = "")
    (h2 : ¬ extLines text = []) :
    (extract text).languages = langVal (extLines text) "" := by
  unfold extract extractUpTo; rw [if_neg h1, if_neg h2]; rfl

theorem extract_awards {text : String} (h1 : ¬ pyStrip text = "")
    (h2 : ¬ extLines text = []) :
    (extract text).awards = awardsVal (extLines text) "" := by
  unfold extract extractUpTo; rw [if_neg h1, if_neg h2]; rfl

theorem extract_title {text : String} (h1 : ¬ pyStrip text = "")
    (h2 : ¬ extLines text = []) :
    (extract text).title = titleVal (extLines text) (skillsVal (extLines text) "") "" := by
  unfold extract extractUpTo; rw [if_neg h1, if_neg h2]; rfl

set_option maxHeartbeats 4000000 in
/-- After any prefix of the pipeline's assignments, every field holds
either its default value or its value after the faultless run (each
field is assigned at most once, in a fixed stage order, from inputs
already final when the assignment runs). -/
theorem upTo_field_cases (text : String) (k : Nat) :
    ((extractUpTo text k).title = defaultFields.title ∨ (extractUpTo text k).title = (extract text).title) ∧
    ((extractUpTo text k).fullname = defaultFields.fullname ∨ (extractUpTo text k).fullname = (extract text).fullname) ∧
    ((extractUpTo text k).email = defaultFields.email ∨ (extractUpTo text k).email = (extract text).email) ∧
    ((extractUpTo text k).phone = defaultFields.phone ∨ (extractUpTo text k).phone = (extract text).phone) ∧
    ((extractUpTo text k).location = defaultFields.location ∨ (extractUpTo text k).location = (extract text).location) ∧
    ((extractUpTo text k).summary = defaultFields.summary ∨ (extractUpTo text k).summary = (extract text).summary) ∧
    ((extractUpTo text k).skills = defaultFields.skills ∨ (extractUpTo text k).skills = (extract text).skills) ∧
    ((extractUpTo text k).experience = defaultFields.experience ∨ (extractUpTo text k).experience = (extract text).experience) ∧
    ((extractUpTo text k).education = defaultFields.education ∨ (extractUpTo text k).education = (extract text).education) ∧
    ((extractUpTo text k).projects = defaultFields.projects ∨ (extractUpTo text k).projects = (extract text).projects) ∧
    ((extractUpTo text k).certifications = defaultFields.certifications ∨ (extractUpTo text k).certifications = (extract text).certifications) ∧
    ((extractUpTo text k).awards = defaultFields.awards ∨ (extractUpTo text k).awards = (extract text).awards) ∧
    ((extractUpTo text k).languages = defaultFields.languages ∨ (extractUpTo text k).languages = (extract text).languages) ∧
    ((extractUpTo text k).linkedin = defaultFields.linkedin ∨ (extractUpTo text k).linkedin = (extract text).linkedin) ∧
    ((extractUpTo text k).github = defaultFields.github ∨ (extractUpTo text k).github = (extract text).github) ∧
    ((extractUpTo text k).website = defaultFields.website ∨ (extractUpTo text k).website = (extract text).website) ∧
    ((extractUpTo text k).dob = defaultFields.dob ∨ (extractUpTo text k).dob = (extract text).dob) ∧
    ((extractUpTo text k).nationality = defaultFields.nationality ∨ (extractUpTo text k).nationality = (extract text).nationality) ∧
    ((extractUpTo text k).softskills = defaultFields.softskills ∨ (extractUpTo text k).softskills = (extract text).softskills) ∧
    ((extractUpTo text k).career_objective = defaultFields.career_objective ∨ (extractUpTo text k).career_objective = (extract text).career_objective) := by
  by_cases g1 : pyStrip text = ""
  · rw [show extract text = extractUpTo text 15 from rfl,
      upTo_strip_empty g1 k, upTo_strip_empty g1 15]
    refine ⟨?_, ?_, ?_, ?_, ?_, ?_, ?_, ?_, ?_, ?_, ?_, ?_, ?_, ?_, ?_, ?_, ?_, ?_, ?_, ?_⟩ <;>
      exact Or.inl rfl
  · by_cases g2 : extLines text = []
    · rw [show extract text = extractUpTo text 15 from rfl,
        upTo_lines_empty g1 g2 k, upTo_lines_empty g1 g2 15]
      refine ⟨?_, ?_, ?_, ?_, ?_, ?_, ?_, ?_, ?_, ?_, ?_, ?_, ?_, ?_, ?_, ?_, ?_, ?_, ?_, ?_⟩ <;>
        exact Or.inl rfl
    · rcases Nat.lt_or_ge k 15 with hk | hk
      · have e1 : extractUpTo text k =
            ((stageList (pyStrip text) (extLines text)).take k).foldl (fun s f => f s) defaultFields := by
          unfold extractUpTo; rw [if_neg g1, if_neg g2]
        have e2 : extract text =
            ((stageList (pyStrip text) (extLines text)).take 15).foldl (fun s f => f s) defaultFields := by
          unfold extract extractUpTo; rw [if_neg g1, if_neg g2]
        rw [e1, e2]
        interval_cases k
        · exact ⟨Or.inl rfl, Or.inl rfl, Or.inl rfl, Or.inl rfl, Or.inl rfl, Or.inl rfl, Or.inl rfl, Or.inl rfl, Or.inl rfl, Or.inl rfl, Or.inl rfl, Or.inl rfl, Or.inl rfl, Or.inl rfl, Or.inl rfl, Or.inl rfl, Or.inl rfl, Or.inl rfl, Or.inl rfl, Or.inl rfl⟩
        · exact ⟨Or.inl rfl, Or.inr rfl, Or.inl rfl, Or.inl rfl, Or.inl rfl, Or.inl rfl, Or.inl rfl, Or.inl rfl, Or.inl rfl, Or.inl rfl, Or.inl rfl, Or.inl rfl, Or.inl rfl, Or.inl rfl, Or.inl rfl, Or.inl rfl, Or.inl rfl, Or.inl rfl, Or.inl rfl, Or.inl rfl⟩
        · exact ⟨Or.inl rfl, Or.inr rfl, Or.inr rfl, Or.inl rfl, Or.inl rfl, Or.inl rfl, Or.inl rfl, Or.inl rfl, Or.inl rfl, Or.inl rfl, Or.inl rfl, Or.inl rfl, Or.inl rfl, Or.inl rfl, Or.inl rfl, Or.inl rfl, Or.inl rfl, Or.inl rfl, Or.inl rfl, Or.inl rfl⟩
        · exact ⟨Or.inl rfl, Or.inr rfl, Or.inr rfl, Or.inr rfl, Or.inl rfl, Or.inl rfl, Or.inl rfl, Or.inl rfl, Or.inl rfl, Or.inl rfl, Or.inl rfl, Or.inl rfl, Or.inl rfl, Or.inl rfl, Or.inl rfl, Or.inl rfl, Or.inl rfl, Or.inl rfl, Or.inl rfl, Or.inl rfl⟩
        · exact ⟨Or.inl rfl, Or.inr rfl, Or.inr rfl, Or.inr rfl, Or.inr rfl, Or.inl rfl, Or.inl rfl, Or.inl rfl, Or.inl rfl, Or.inl rfl, Or.inl rfl, Or.inl rfl, Or.inl rfl, Or.inl rfl, Or.inl rfl, Or.inl rfl, Or.inl rfl, Or.inl rfl, Or.inl rfl, Or.inl rfl⟩
        · exact ⟨Or.inl rfl, Or.inr rfl, Or.inr rfl, Or.inr rfl, Or.inr rfl, Or.inl rfl, Or.inl rfl, Or.inl rfl, Or.inl rfl, Or.inl rfl, Or.inl rfl, Or.inl rfl, Or.inl rfl, Or.inr rfl, Or.inl rfl, Or.inl rfl, Or.inl rfl, Or.inl rfl, Or.inl rfl, Or.inl rfl⟩
        · exact ⟨Or.inl rfl, Or.inr rfl, Or.inr rfl, Or.inr rfl, Or.inr rfl, Or.inl rfl, Or.inl rfl, Or.inl rfl, Or.inl rfl, Or.inl rfl, Or.inl rfl, Or.inl rfl, Or.inl rfl, Or.inr rfl, Or.inr rfl, Or.inl rfl, Or.inl rfl, Or.inl rfl, Or.inl rfl, Or.inl rfl⟩
        · exact ⟨Or.inl rfl, Or.inr rfl, Or.inr rfl, Or.inr rfl, Or.inr rfl, Or.inr rfl, Or.inl rfl, Or.inl rfl, Or.inl rfl, Or.inl rfl, Or.inl rfl, Or.inl rfl, Or.inl rfl, Or.inr rfl, Or.inr rfl, Or.inl rfl, Or.inl rfl, Or.inl rfl, Or.inl rfl, Or.inr rfl⟩
        · exact ⟨Or.inl rfl, Or.inr rfl, Or.inr rfl, Or.inr rfl, Or.inr rfl, Or.inr rfl, Or.inr rfl, Or.inl rfl, Or.inl rfl, Or.inl rfl, Or.inl rfl, Or.inl rfl, Or.inl rfl, Or.inr rfl, Or.inr rfl, Or.inl rfl, Or.inl rfl, Or.inl rfl, Or.inl rfl, Or.inr rfl⟩
        · exact ⟨Or.inl rfl, Or.inr rfl, Or.inr rfl, Or.inr rfl, Or.inr rfl, Or.inr rfl, Or.inr rfl, Or.inr rfl, Or.inl rfl, Or.inl rfl, Or.inl rfl, Or.inl rfl, Or.inl rfl, Or.inr rfl, Or.inr rfl, Or.inl rfl, Or.inl rfl, Or.inl rfl, Or.inl rfl, Or.inr rfl⟩
        · exact ⟨Or.inl rfl, Or.inr rfl, Or.inr rfl, Or.inr rfl, Or.inr rfl, Or.inr rfl, Or.inr rfl, Or.inr rfl, Or.inr rfl, Or.inl rfl, Or.inl rfl, Or.inl rfl, Or.inl rfl, Or.inr rfl, Or.inr rfl, Or.inl rfl, Or.inl rfl, Or.inl rfl, Or.inl rfl, Or.inr rfl⟩
        · exact ⟨Or.inl rfl, Or.inr rfl, Or.inr rfl, Or.inr rfl, Or.inr rfl, Or.inr rfl, Or.inr rfl, Or.inr rfl, Or.inr rfl, Or.inr rfl, Or.inl rfl, Or.inl rfl, Or.inl rfl, Or.inr rfl, Or.inr rfl, Or.inl rfl, Or.inl rfl, Or.inl rfl, Or.inl rfl, Or.inr rfl⟩
        · exact ⟨Or.inl rfl, Or.inr rfl, Or.inr rfl, Or.inr rfl, Or.inr rfl, Or.inr rfl, Or.inr rfl, Or.inr rfl, Or.inr rfl, Or.inr rfl, Or.inr rfl, Or.inl rfl, Or.inl rfl, Or.inr rfl, Or.inr rfl, Or.inl rfl, Or.inl rfl, Or.inl rfl, Or.inl rfl, Or.inr rfl⟩
        · exact ⟨Or.inl rfl, Or.inr rfl, Or.inr rfl, Or.inr rfl, Or.inr rfl, Or.inr rfl, Or.inr rfl, Or.inr rfl, Or.inr rfl, Or.inr rfl, Or.inr rfl, Or.inl rfl, Or.inr rfl, Or.inr rfl, Or.inr rfl, Or.inl rfl, Or.inl rfl, Or.inl rfl, Or.inl rfl, Or.inr rfl⟩
        · exact ⟨Or.inl rfl, Or.inr rfl, Or.inr rfl, Or.inr rfl, Or.inr rfl, Or.inr rfl, Or.inr rfl, Or.inr rfl, Or.inr rfl, Or.inr rfl, Or.inr rfl, Or.inr rfl, Or.inr rfl, Or.inr rfl, Or.inr rfl, Or.inl rfl, Or.inl rfl, Or.inl rfl, Or.inl rfl, Or.inr rfl⟩
      · have hlen : (stageList (pyStrip text) (extLines text)).length ≤ 15 :=
          Nat.le_of_eq (rfl : (stageList (pyStrip text) (extLines text)).length = 15)
        have e3 : extractUpTo text k = extract text := by
          unfold extract extractUpTo
          rw [if_neg g1, if_neg g2, if_neg g1, if_neg g2,
            List.take_of_length_le (le_trans hlen hk),
            List.take_of_length_le hlen]
        rw [e3]
        refine ⟨?_, ?_, ?_, ?_, ?_, ?_, ?_, ?_, ?_, ?_, ?_, ?_, ?_, ?_, ?_, ?_, ?_, ?_, ?_, ?_⟩ <;>
          exact Or.inr rfl

/-! ## Field length cap lemmas -/

theorem summaryVal_le (L : List String) (prev : String) (h : prev.length ≤ 1000) :
    (summaryVal L prev).length ≤ 1000 := by
  unfold summaryVal; split
  · exact h
  · exact pyTake_length_le _ _

theorem skillsVal_le (L : List String) (prev : String) (h : prev.length ≤ 500) :
    (skillsVal L prev).length ≤ 500 := by
  unfold skillsVal; split
  · exact h
  · exact pyTake_length_le _ _

theorem expVal_le (L : List String) (prev : String) (h : prev.length ≤ 1500) :
    (expVal L prev).length ≤ 1500 := by
  unfold expVal; split
  · split
    · exact h
    · exact pyTake_length_le _ _
  · exact pyTake_length_le _ _

theorem eduVal_le (L : List String) (prev : String) (h : prev.length ≤ 1000) :
    (eduVal L prev).length ≤ 1000 := by
  unfold eduVal; split
  · split
    · exact h
    · exact pyTake_length_le _ _
  · exact pyTake_length_le _ _

theorem projVal_le (L : List String) (prev : String) (h : prev.length ≤ 800) :
    (projVal L prev).length ≤ 800 := by
  unfold projVal; split
  · exact h
  · exact pyTake_length_le _ _

theorem certVal_le (L : List String) (prev : String) (h : prev.length ≤ 800) :
    (certVal L prev).length ≤ 800 := by
  unfold certVal; split
  · exact h
  · exact pyTake_length_le _ _

theorem langVal_le (L : List String) (prev : String) (h : prev.length ≤ 300) :
    (langVal L prev).length ≤ 300 := by
  unfold langVal; split
  · exact h
  · exact pyTake_length_le _ _

theorem awardsVal_le (L : List String) (prev : String) (h : prev.length ≤ 500) :
    (awardsVal L prev).length ≤ 500 := by
  unfold awardsVal; split
  · exact h
  · exact pyTake_length_le _ _

/-! ## The claims -/

/-- C1: for every input text, and on every pipeline prefix (so also on
the exception-catching path), the returned mapping binds exactly the 20
enumerated keys, in the dictionary order of `get_default_16_fields`, and
every key's value is a `String` (the codomain of the mapping), never
absent. -/
theorem c1_twenty_keys (text : String) (k : Nat) :
    ((extractUpTo text k).toMap).map Prod.fst = keyList := rfl

/-- C2: on every empty or whitespace-only input text the extractor
returns exactly the default mapping. -/
theorem c2_default_on_blank (text : String) (h : ∀ c ∈ text.data, isWS c = true) :
    extract text = defaultFields := by
  have hs : pyStrip text = "" := by
    show String.mk (stripL text.data) = ""
    have h1 : text.data.dropWhile isWS = [] := List.dropWhile_eq_nil_iff.mpr h
    unfold stripL
    rw [h1]
    rfl
  exact upTo_strip_empty hs 15

theorem c2_witness : extract " \n\t " = defaultFields :=
  c2_default_on_blank " \n\t " (by decide)

/-- C3: the hard length caps hold for every input text: summary at most
1000 characters, skills 500, experience 1500, education 1000, projects
800, certifications 800, languages 300, awards 500. -/
theorem c3_length_caps (text : String) :
    (extract text).summary.length ≤ 1000 ∧
    (extract text).skills.length ≤ 500 ∧
    (extract text).experience.length ≤ 1500 ∧
    (extract text).education.length ≤ 1000 ∧
    (extract text).projects.length ≤ 800 ∧
    (extract text).certifications.length ≤ 800 ∧
    (extract text).languages.length ≤ 300 ∧
    (extract text).awards.length ≤ 500 := by
  by_cases g1 : pyStrip text = ""
  · rw [show extract text = extractUpTo text 15 from rfl, upTo_strip_empty g1 15]
    decide
  · by_cases g2 : extLines text = []
    · rw [show extract text = extractUpTo text 15 from rfl, upTo_lines_empty g1 g2 15]
      decide
    · rw [extract_summary g1 g2, extract_skills g1 g2, extract_experience g1 g2,
        extract_education g1 g2, extract_projects g1 g2, extract_certifications g1 g2,
        extract_languages g1 g2, extract_awards g1 g2]
      exact ⟨summaryVal_le _ _ (by decide), skillsVal_le _ _ (by decide),
        expVal_le _ _ (by decide), eduVal_le _ _ (by decide),
        projVal_le _ _ (by decide), certVal_le _ _ (by decide),
        langVal_le _ _ (by decide), awardsVal_le _ _ (by decide)⟩

/-- C10: the ratio `alpha_count / len(line)` of the name detector never
divides by zero: every line the name scan examines (the first 15
normalized lines) is non-empty, because line normalization strips each
line and drops empty lines before the scan. -/
theorem c10_no_zero_length_line (text : String) (ln : String)
    (h : ln ∈ (extLines text).take 15) : 0 < ln.length :=
  length_pos_of_ne (mem_extLines_ne (List.take_subset _ _ h))

theorem c10_witness :
    ("ab" ∈ (extLines " ab \ncd").take 15) ∧ 0 < ("ab" : String).length :=
  ⟨by decide, c10_no_zero_length_line " ab \ncd" "ab" (by decide)⟩

/-- C4 counterexample: with headers detected at consecutive indices
(`summary` at 0, `skills` at 1), the slice for the field at index 0 does
contain the line at index 1 (and the one after it): the boundary loop
compares candidate terminators against `start = h + 1`, strictly, so a
header exactly one line below is not a terminator. -/
theorem c4_counterexample :
    posOf (extLines "Summary\nSkills\nthis is a long content line") "summary" = some 0 ∧
    posOf (extLines "Summary\nSkills\nthis is a long content line") "skills" = some 1 ∧
    (extLines "Summary\nSkills\nthis is a long content line").get? 1 = some "Skills" ∧
    "Skills" ∈ rawSectionSlice (extLines "Summary\nSkills\nthis is a long content line") "summary" ∧
    rawSectionSlice (extLines "Summary\nSkills\nthis is a long content line") "summary"
      = ["Skills", "this is a long content line"] := by
  refine ⟨?_, ?_, ?_, ?_, ?_⟩ <;> decide

/-- C4 amended: for any two detected section headers at indices
`h1 < h2`, the slice for the field at `h1` ends at or before `h2`
provided `h2 > h1 + 1`; a header at exactly `h1 + 1` is not treated as a
terminator, because the code compares candidates strictly against
`start = h1 + 1`. -/
theorem c4_slice_bound (text f g : String) (h1 h2 : Nat)
    (_hf : posOf (extLines text) f = some h1)
    (hg : posOf (extLines text) g = some h2)
    (hlt : h1 + 1 < h2) :
    sliceEnd (sectionPositions (extLines text)) (h1 + 1) (extLines text).length ≤ h2 := by
  have hm : (g, h2) ∈ sectionPositions (extLines text) :=
    lookup_mem (sectionPositions (extLines text)) g h2 hg
  exact sliceEnd_le_of_mem (sectionPositions (extLines text)) (g, h2) hm (h1 + 1)
    (extLines text).length hlt

theorem c4_witness :
    posOf (extLines "Summary\nhello world line\nSkills\nlong line here ok") "summary" = some 0 ∧
    posOf (extLines "Summary\nhello world line\nSkills\nlong line here ok") "skills" = some 2 ∧
    0 + 1 < 2 ∧
    sliceEnd (sectionPositions (extLines "Summary\nhello world line\nSkills\nlong line here ok"))
      (0 + 1) (extLines "Summary\nhello world line\nSkills\nlong line here ok").length ≤ 2 :=
  ⟨by decide, by decide, by decide,
    c4_slice_bound "Summary\nhello world line\nSkills\nlong line here ok" "summary" "skills"
      0 2 (by decide) (by decide) (by decide)⟩

/-- C5 counterexample: a fault caught after the first pipeline
assignment (the modelled exception path) returns a mapping that differs
from the defaults — the `except` handler returns the partially mutated
result dictionary, not the default mapping. -/
theorem c5_counterexample : extractUpTo "John Smith" 1 ≠ defaultFields := by
  intro h
  exact absurd (congrArg Fields.fullname h) (by decide)

/-- C5 amended: an internal failure is caught and never propagates, and
the extractor then returns the mapping as populated so far: every field
of the returned mapping equals either its default value or its value on
the faultless run.  Only a failure occurring before any field assignment
(for instance while reading the PDF) yields exactly the default
mapping. -/
theorem c5_catch_partial (text : String) (k : Nat) :
    (extractUpTo text 0 = defaultFields) ∧
    ((extractUpTo text k).title = defaultFields.title ∨ (extractUpTo text k).title = (extract text).title) ∧
    ((extractUpTo text k).fullname = defaultFields.fullname ∨ (extractUpTo text k).fullname = (extract text).fullname) ∧
    ((extractUpTo text k).email = defaultFields.email ∨ (extractUpTo text k).email = (extract text).email) ∧
    ((extractUpTo text k).phone = defaultFields.phone ∨ (extractUpTo text k).phone = (extract text).phone) ∧
    ((extractUpTo text k).location = defaultFields.location ∨ (extractUpTo text k).location = (extract text).location) ∧
    ((extractUpTo text k).summary = defaultFields.summary ∨ (extractUpTo text k).summary = (extract text).summary) ∧
    ((extractUpTo text k).skills = defaultFields.skills ∨ (extractUpTo text k).skills = (extract text).skills) ∧
    ((extractUpTo text k).experience = defaultFields.experience ∨ (extractUpTo text k).experience = (extract text).experience) ∧
    ((extractUpTo text k).education = defaultFields.education ∨ (extractUpTo text k).education = (extract text).education) ∧
    ((extractUpTo text k).projects = defaultFields.projects ∨ (extractUpTo text k).projects = (extract text).projects) ∧
    ((extractUpTo text k).certifications = defaultFields.certifications ∨ (extractUpTo text k).certifications = (extract text).certifications) ∧
    ((extractUpTo text k).awards = defaultFields.awards ∨ (extractUpTo text k).awards = (extract text).awards) ∧
    ((extractUpTo text k).languages = defaultFields.languages ∨ (extractUpTo text k).languages = (extract text).languages) ∧
    ((extractUpTo text k).linkedin = defaultFields.linkedin ∨ (extractUpTo text k).linkedin = (extract text).linkedin) ∧
    ((extractUpTo text k).github = defaultFields.github ∨ (extractUpTo text k).github = (extract text).github) ∧
    ((extractUpTo text k).website = defaultFields.website ∨ (extractUpTo text k).website = (extract text).website) ∧
    ((extractUpTo text k).dob = defaultFields.dob ∨ (extractUpTo text k).dob = (extract text).dob) ∧
    ((extractUpTo text k).nationality = defaultFields.nationality ∨ (extractUpTo text k).nationality = (extract text).nationality) ∧
    ((extractUpTo text k).softskills = defaultFields.softskills ∨ (extractUpTo text k).softskills = (extract text).softskills) ∧
    ((extractUpTo text k).career_objective = defaultFields.career_objective ∨ (extractUpTo text k).career_objective = (extract text).career_objective) := by
  refine ⟨?_, upTo_field_cases text k⟩
  by_cases g1 : pyStrip text = ""
  · exact upTo_strip_empty g1 0
  · by_cases g2 : extLines text = []
    · exact upTo_lines_empty g1 g2 0
    · unfold extractUpTo
      rw [if_neg g1, if_neg g2]
      rfl

/-- C6: divergence of the title fallback.  On an input whose first 25
lines contain no job-title keyword and whose extracted skills text
contains "data", the claim (and the evident intent of the dead fallback
branch) gives title "Data Professional"; the code leaves the title empty
because the fallback guard compares the title against the literal
"My Resume" while the default title is the empty string. -/
theorem c6_title_fallback_dead :
    List.find? titlePred ((extLines "Skills\ndata analysis and statistics").take 25) = none ∧
    containsS "data" (lowerS (extract "Skills\ndata analysis and statistics").skills) = true ∧
    (extract "Skills\ndata analysis and statistics").title = "" ∧
    (extract "Skills\ndata analysis and statistics").title ≠ "Data Professional" := by
  refine ⟨?_, ?_, ?_, ?_⟩ <;> decide

/-- C7: when no experience header pattern matched any line but some line
contains "experience" and is shorter than 70 characters, the returned
experience field is the newline-join of the up-to-14 lines after the
first such line, capped at 1500 characters, and non-empty when at least
one following line exists. -/
theorem c7_experience_fallback (text : String) (i : Nat)
    (hn : posOf (extLines text) "experience" = none)
    (hi : firstIdx expFallbackPred (extLines text) = some i) :
    (extract text).experience
      = pyTake (joinS "\n" (((extLines text).drop (i + 1)).take 14)) 1500 ∧
    (i + 1 < (extLines text).length → (extract text).experience ≠ "") := by
  have g2 : extLines text ≠ [] := by
    intro he
    rw [he] at hi
    exact absurd hi (by simp [firstIdx])
  have g1 : pyStrip text ≠ "" := fun hs => g2 (extLines_of_strip_empty hs)
  have hsec : sectionContent (extLines text) "experience" 30 = [] := by
    unfold sectionContent
    rw [hn]
  have hfb : fallbackExp (extLines text) = ((extLines text).drop (i + 1)).take 14 := by
    unfold fallbackExp
    rw [hi]
  rw [extract_experience g1 g2]
  unfold expVal
  rw [if_pos hsec, hfb]
  constructor
  · split
    · rename_i hemp
      rw [hemp]
      rfl
    · rfl
  · intro hlen
    have hne : ((extLines text).drop (i + 1)).take 14 ≠ [] := by
      rw [Ne, List.take_eq_nil_iff, List.drop_eq_nil_iff]
      intro hc
      rcases hc with hc | hc
      · exact absurd hc (by decide)
      · omega
    rw [if_neg hne]
    obtain ⟨x, xs, hx⟩ := List.exists_cons_of_ne_nil hne
    rw [hx]
    apply pyTake_ne_empty _ (by norm_num)
    apply joinS_cons_ne
    have hxmem : x ∈ extLines text := by
      have hin : x ∈ ((extLines text).drop (i + 1)).take 14 := by
        rw [hx]; exact List.mem_cons_self _ _
      exact List.drop_subset _ _ (List.take_subset _ _ hin)
    exact mem_extLines_ne hxmem

theorem c7_witness :
    posOf (extLines "John has 5 years experience in logistics\nBuilt many supply chains") "experience" = none ∧
    firstIdx expFallbackPred (extLines "John has 5 years experience in logistics\nBuilt many supply chains") = some 0 ∧
    ((extract "John has 5 years experience in logistics\nBuilt many supply chains").experience
        = pyTake (joinS "\n" (((extLines "John has 5 years experience in logistics\nBuilt many supply chains").drop (0 + 1)).take 14)) 1500 ∧
      (0 + 1 < (extLines "John has 5 years experience in logistics\nBuilt many supply chains").length →
        (extract "John has 5 years experience in logistics\nBuilt many supply chains").experience ≠ "")) :=
  ⟨by decide, by decide,
    c7_experience_fallback "John has 5 years experience in logistics\nBuilt many supply chains" 0
      (by decide) (by decide)⟩

/-- C8: with a non-empty summary slice, the returned summary is the
space-join of the slice capped at 1000 characters; the career objective
equals that same text exactly when some line matches the
`career\s+objective` pattern, and stays empty otherwise. -/
theorem c8_summary_career (text : String)
    (h : sectionContent (extLines text) "summary" 10 ≠ []) :
    (extract text).summary
      = pyTake (joinS " " (sectionContent (extLines text) "summary" 10)) 1000 ∧
    ((extLines text).any careerPred = true →
      (extract text).career_objective
        = pyTake (joinS " " (sectionContent (extLines text) "summary" 10)) 1000) ∧
    ((extLines text).any careerPred = false →
      (extract text).career_objective = "") := by
  have g2 : extLines text ≠ [] := by
    intro he
    rw [he] at h
    exact h (by decide)
  have g1 : pyStrip text ≠ "" := fun hs => g2 (extLines_of_strip_empty hs)
  refine ⟨?_, ?_, ?_⟩
  · rw [extract_summary g1 g2]
    unfold summaryVal
    rw [if_neg h]
  · intro hc
    rw [extract_career g1 g2]
    unfold careerVal
    rw [if_neg h, if_pos hc]
  · intro hc
    rw [extract_career g1 g2]
    unfold careerVal
    rw [if_neg h, if_neg (by simp [hc])]

theorem c8_witness :
    sectionContent (extLines "Career Objective\nSeeking challenging role in software\nmore text padding line") "summary" 10 ≠ [] ∧
    ((extract "Career Objective\nSeeking challenging role in software\nmore text padding line").summary
        = pyTake (joinS " " (sectionContent (extLines "Career Objective\nSeeking challenging role in software\nmore text padding line") "summary" 10)) 1000 ∧
      ((extLines "Career Objective\nSeeking challenging role in software\nmore text padding line").any careerPred = true →
        (extract "Career Objective\nSeeking challenging role in software\nmore text padding line").career_objective
          = pyTake (joinS " " (sectionContent (extLines "Career Objective\nSeeking challenging role in software\nmore text padding line") "summary" 10)) 1000) ∧
      ((extLines "Career Objective\nSeeking challenging role in software\nmore text padding line").any careerPred = false →
        (extract "Career Objective\nSeeking challenging role in software\nmore text padding line").career_objective = "")) :=
  ⟨by decide,
    c8_summary_career "Career Objective\nSeeking challenging role in software\nmore text padding line"
      (by decide)⟩

/-! ## Final-value lemmas for the placeholder claim -/

theorem fullname_final (text : String) :
    (extract text).fullname = "Your Name" ∨ namePred (extract text).fullname = true := by
  by_cases g1 : pyStrip text = ""
  · rw [show extract text = extractUpTo text 15 from rfl, upTo_strip_empty g1 15]
    exact Or.inl rfl
  · by_cases g2 : extLines text = []
    · rw [show extract text = extractUpTo text 15 from rfl, upTo_lines_empty g1 g2 15]
      exact Or.inl rfl
    · rw [extract_fullname g1 g2]
      unfold nameVal
      cases hf : List.find? namePred ((extLines text).take 15) with
      | none => exact Or.inl rfl
      | some ln =>
        rw [Option.getD_some]
        exact Or.inr (List.find?_some hf)

theorem namePred_words {ln : String} (h : namePred ln = true) :
    2 ≤ (pyWords ln).length ∧ (pyWords ln).length ≤ 4 := by
  unfold namePred at h
  simp only [Bool.and_eq_true, decide_eq_true_eq] at h
  exact ⟨h.1.1.1.2, h.1.1.2⟩

theorem summary_final (text : String) :
    (extract text).summary = defMsg ∨
    ((extract text).summary
        = pyTake (joinS " " (sectionContent (extLines text) "summary" 10)) 1000 ∧
      sectionContent (extLines text) "summary" 10 ≠ []) := by
  by_cases g1 : pyStrip text = ""
  · rw [show extract text = extractUpTo text 15 from rfl, upTo_strip_empty g1 15]
    exact Or.inl rfl
  · by_cases g2 : extLines text = []
    · rw [show extract text = extractUpTo text 15 from rfl, upTo_lines_empty g1 g2 15]
      exact Or.inl rfl
    · rw [extract_summary g1 g2]
      unfold summaryVal
      split
      · exact Or.inl rfl
      · rename_i hne
        exact Or.inr ⟨rfl, hne⟩

theorem summary_pyTake_ne {L : List String} (h : sectionContent L "summary" 10 ≠ []) :
    pyTake (joinS " " (sectionContent L "summary" 10)) 1000 ≠ "" := by
  obtain ⟨x, xs, hx⟩ := List.exists_cons_of_ne_nil h
  rw [hx]
  apply pyTake_ne_empty _ (by norm_num)
  apply joinS_cons_ne
  exact sectionContent_ne_mem (f := "summary") (m := 10)
    (hx ▸ List.mem_cons_self x xs)

/-- C9: on every input and every pipeline prefix (exception path
included), the fullname is never empty — it is the placeholder
"Your Name" or a detected line of 2 to 4 words — and the summary is
never empty — it is the informational placeholder or the capped
space-join of the detected summary slice. -/
theorem c9_never_empty (text : String) (k : Nat) :
    (extractUpTo text k).fullname ≠ "" ∧
    ((extractUpTo text k).fullname = "Your Name" ∨
      (2 ≤ (pyWords (extractUpTo text k).fullname).length ∧
        (pyWords (extractUpTo text k).fullname).length ≤ 4)) ∧
    (extractUpTo text k).summary ≠ "" ∧
    ((extractUpTo text k).summary = defMsg ∨
      (extractUpTo text k).summary
        = pyTake (joinS " " (sectionContent (extLines text) "summary" 10)) 1000) ∧
    (∀ ln ∈ sectionContent (extLines text) "summary" 10, 10 ≤ ln.length) := by
  obtain ⟨-, hfn, -, -, -, hsm, -⟩ := upTo_field_cases text k
  have hfn' : (extractUpTo text k).fullname = "Your Name" ∨
      namePred (extractUpTo text k).fullname = true := by
    rcases hfn with h | h
    · rw [h]; exact Or.inl rfl
    · rw [h]; exact fullname_final text
  have hsm' : (extractUpTo text k).summary = defMsg ∨
      ((extractUpTo text k).summary
          = pyTake (joinS " " (sectionContent (extLines text) "summary" 10)) 1000 ∧
        sectionContent (extLines text) "summary" 10 ≠ []) := by
    rcases hsm with h | h
    · rw [h]; exact Or.inl rfl
    · rw [h]; exact summary_final text
  refine ⟨?_, ?_, ?_, ?_, ?_⟩
  · rcases hfn' with h | h
    · rw [h]; decide
    · intro he
      have hw := (namePred_words h).1
      rw [he] at hw
      exact absurd hw (by decide)
  · rcases hfn' with h | h
    · exact Or.inl h
    · exact Or.inr (namePred_words h)
  · rcases hsm' with h | h
    · rw [h]; decide
    · rw [h.1]; exact summary_pyTake_ne h.2
  · rcases hsm' with h | h
    · exact Or.inl h
    · exact Or.inr h.1
  · exact fun ln hln => sectionContent_len hln

end SRB

